import Mathlib

/-
Verification development for the tawhiri wind dataset ingestion layer
(src/tawhiri/wind/__init__.py).  The Python module is shallowly embedded:
numpy boolean checklists over the (hour, pressure, variable) axes become
finite sets of index triples, the memory-mapped dataset array becomes a
function from triples to grid values, and the generator-based record
stream becomes a list of decoded records processed by a fold.
-/

set_option maxRecDepth 40000

namespace Tawhiri

/-- A slot: a (hour, pressure, variable) index triple into the first three
axes of the dataset array. -/
abbrev Loc : Type := ℕ × ℕ × ℕ

/-- A location name: the raw (forecastTime, level, variable-name) triple of
a decoded record, before axis index resolution. -/
abbrev LocName : Type := ℤ × ℤ × String

/-- A checklist: the set of slots currently marked True in a numpy boolean
array of shape (65, 47, 3).  The embedding identifies a boolean array over
a fixed finite index space with its set of True positions. -/
abbrev Checklist : Type := Finset Loc

/-- Python list.index: position of the first occurrence of a value, None
when the value is absent (list.index raises ValueError there). -/
def index? {α : Type} [DecidableEq α] : List α → α → Option ℕ
  | [], _ => none
  | x :: xs, v => if x = v then some 0 else (index? xs v).map (· + 1)

/-- Python range(start, stop, step) for a positive step. -/
def pyRange (start stop step : ℤ) : List ℤ :=
  (List.range (((stop - start) + step - 1) / step).toNat).map
    (fun i => start + step * i)

/-- Insert a value into a descending-sorted list, keeping it sorted. -/
def insertDesc (x : ℤ) : List ℤ → List ℤ
  | [] => [x]
  | y :: ys => if y ≤ x then x :: y :: ys else y :: insertDesc x ys

/-- Python sorted(l, reverse=True) on distinct integers: descending
insertion sort. -/
def sortDesc (l : List ℤ) : List ℤ := l.foldr insertDesc []

/-- numpy arange(start, stop, 0.5) in half-unit scaling: every value on
the half-degree grids is exactly representable as twice its value, so the
float value v is embedded as the integer 2*v.  With scaled integral
bounds, ceil((stop - start) / 0.5) is just stop2 - start2. -/
def arangeHalf (start2 stop2 : ℤ) : List ℤ :=
  (List.range (stop2 - start2).toNat).map (fun i => start2 + i)

/-- Dataset.pressures_pgrb2f (source lines 21-23). -/
def pressures_pgrb2f : List ℤ :=
  [10, 20, 30, 50, 70, 100, 150, 200, 250, 300, 350, 400,
   450, 500, 550, 600, 650, 700, 750, 800, 850, 900, 925,
   950, 975, 1000]

/-- Dataset.pressures_pgrb2bf (source lines 24-25). -/
def pressures_pgrb2bf : List ℤ :=
  [1, 2, 3, 5, 7, 125, 175, 225, 275, 325, 375, 425,
   475, 525, 575, 625, 675, 725, 775, 825, 875]

/-- Dataset.axes.hour: range(0, 192 + 3, 3). -/
def hourAxis : List ℤ := pyRange 0 (192 + 3) 3

/-- Dataset.axes.pressure: sorted(pressures_pgrb2f + pressures_pgrb2bf,
reverse=True). -/
def pressureAxis : List ℤ := sortDesc (pressures_pgrb2f ++ pressures_pgrb2bf)

/-- Dataset.axes.variable: the fixed three-element variable axis. -/
def variableAxis : List String := ["height", "wind_u", "wind_v"]

/-- Dataset.axes.latitude: np.arange(-90, 90 + 0.5, 0.5), in half-degree
units (2 * -90 = -180 up to 2 * 90.5 = 181 exclusive). -/
def latitudeAxis : List ℤ := arangeHalf (-180) 181

/-- Dataset.axes.longitude: np.arange(0, 360, 0.5), in half-degree units
(0 up to 2 * 360 = 720 exclusive). -/
def longitudeAxis : List ℤ := arangeHalf 0 720

/-- Dataset.shape (source line 13): the fixed five-axis array shape. -/
def shape : ℕ × ℕ × ℕ × ℕ × ℕ := (65, 47, 3, 361, 720)

/-- The shape of every checklist: cls.shape[0:3] (source line 71). -/
def checklistShape : ℕ × ℕ × ℕ := (shape.1, shape.2.1, shape.2.2.1)

/-- Dataset.checklist(): np.zeros(shape[0:3], bool), i.e. the all-False
boolean array, whose set of True positions is empty. -/
def emptyChecklist : Checklist := ∅

/-- A decoded GRIB record as yielded by the external pygrib codec: the
fields the ingestion core reads.  The grid of values and the raw bytes are
opaque to the core, so they are type parameters G and B. -/
structure GribRecord (G B : Type) where
  typeOfLevel : String
  name : String
  forecastTime : ℤ
  level : ℤ
  values : G
  tostring : B
  distinctLatitudes : List ℤ
  distinctLongitudes : List ℤ
deriving DecidableEq

/-- The distinct ValueError kinds raised by unpack_grib and its helpers.
The source raises ValueError with distinct messages; the TypeError arising
from the unguarded use of a None checklist at line 147 is also a kind. -/
inductive UnpackError where
  | unknownLocation
  | duplicateInFile (location_name : LocName)
  | alreadyUnpacked (location_name : LocName)
  | unexpectedHour
  | unexpectedRecord (location_name : LocName)
  | unexpectedLatitudes
  | unexpectedLongitudes
  | missingRecords
  | checklistRace
  | noneChecklistTypeError
deriving DecidableEq

/-- The _grib_name_to_variable dict (source lines 95-97). -/
def grib_name_to_variable? (n : String) : Option String :=
  if n = "Geopotential Height" then some "height"
  else if n = "U component of wind" then some "wind_u"
  else if n = "V component of wind" then some "wind_v"
  else none

/-- The filter applied by _grib_records (source lines 159-162): keep only
isobaric-pressure records whose name is a recognized variable. -/
def keptFilter {G B : Type} (r : GribRecord G B) : Bool :=
  decide (r.typeOfLevel = "isobaricInhPa") && (grib_name_to_variable? r.name).isSome

/-- location_name of a record (source lines 164-165). -/
def locNameOf {G B : Type} (r : GribRecord G B) : LocName :=
  (r.forecastTime, r.level, (grib_name_to_variable? r.name).getD "")

/-- location of a record (source lines 167-168): lookup each component of
location_name on its axis; a ValueError from list.index is None. -/
def resolveLoc (n : LocName) : Option Loc :=
  match index? hourAxis n.1, index? pressureAxis n.2.1, index? variableAxis n.2.2 with
  | some i, some j, some k => some (i, j, k)
  | _, _, _ => none

/-- Truthiness of the Python test checklist is not None and
checklist[location] (source line 178). -/
def inShared (checklist : Option Checklist) (location : Loc) : Bool :=
  match checklist with
  | some c => decide (location ∈ c)
  | none => false

/-- Truthiness of assert_hour is not None and forecastTime != assert_hour
(source line 181). -/
def hourMismatch {G B : Type} (assert_hour : Option ℤ) (r : GribRecord G B) : Bool :=
  match assert_hour with
  | some h => decide (r.forecastTime ≠ h)
  | none => false

/-- Truthiness of file_checklist is not None and location_name not in
file_checklist (source line 183). -/
def notInManifest (file_checklist : Option (Finset LocName)) (n : LocName) : Bool :=
  match file_checklist with
  | some s => decide (n ∉ s)
  | none => false

/-- The _check_record helper (source lines 174-184): the four per-record
validations, in source order, as the first error raised or None. -/
def check_record {G B : Type} (r : GribRecord G B) (location : Loc)
    (location_name : LocName) (checklist_temp : Checklist)
    (checklist : Option Checklist) (assert_hour : Option ℤ)
    (file_checklist : Option (Finset LocName)) : Option UnpackError :=
  if location ∈ checklist_temp then some (.duplicateInFile location_name)
  else if inShared checklist location = true then some (.alreadyUnpacked location_name)
  else if hourMismatch assert_hour r = true then some .unexpectedHour
  else if notInManifest file_checklist location_name = true then
    some (.unexpectedRecord location_name)
  else none

/-- The _check_axes helper (source lines 186-197): the latitude axis and
then the longitude axis of the record must equal the dataset axes. -/
def check_axes {G B : Type} (r : GribRecord G B) : Option UnpackError :=
  if r.distinctLatitudes ≠ latitudeAxis then some .unexpectedLatitudes
  else if r.distinctLongitudes ≠ longitudeAxis then some .unexpectedLongitudes
  else none

/-- Assignment dataset.array[location] = record.values (source line 128)
on the array embedded as a function from slots to grids. -/
def writeLoc {G : Type} (a : Loc → G) (location : Loc) (v : G) : Loc → G :=
  fun l => if l = location then v else a l

/-- The mutable local state of the unpack_grib loop: the file-local
checklist_temp, the working copy of file_checklist, the checked_axes flag,
and the caller-held dataset array and gribmirror sink. -/
structure LoopState (G B : Type) where
  temp : Checklist
  fc : Option (Finset LocName)
  checkedAxes : Bool
  array : Option (Loc → G)
  mirror : Option (List B)

/-- The record loop of unpack_grib (source lines 116-141) over the list of
records yielded by pygrib: skip filtered records, resolve the location,
run _check_record, run _check_axes once, write the dataset array and the
mirror, set checklist_temp, and remove the triple from the working copy of
file_checklist.  An error stops the loop, returning the state reached so
far (the shared checklist is never written here). -/
def processRecords {G B : Type} (checklist : Option Checklist)
    (assert_hour : Option ℤ) :
    List (GribRecord G B) → LoopState G B → LoopState G B × Option UnpackError
  | [], st => (st, none)
  | r :: rest, st =>
    if keptFilter r = true then
      match resolveLoc (locNameOf r) with
      | none => (st, some .unknownLocation)
      | some location =>
        match check_record r location (locNameOf r) st.temp checklist
            assert_hour st.fc with
        | some e => (st, some e)
        | none =>
          match (if st.checkedAxes = false then check_axes r else none) with
          | some e => (st, some e)
          | none =>
            processRecords checklist assert_hour rest
              { temp := insert location st.temp
                fc := st.fc.map (fun s => s.erase (locNameOf r))
                checkedAxes := true
                array := st.array.map (fun a => writeLoc a location r.values)
                mirror := st.mirror.map (fun ms => ms ++ [r.tostring]) }
    else processRecords checklist assert_hour rest st

/-- The arguments of unpack_grib (source lines 99-100).  The record stream
of the named file is embedded as the list of records pygrib yields for it;
dataset is embedded as its array. -/
structure UnpackArgs (G B : Type) where
  file : List (GribRecord G B)
  dataset : Option (Loc → G)
  checklist : Option Checklist
  gribmirror : Option (List B)
  assert_hour : Option ℤ
  file_checklist : Option (Finset LocName)

/-- The observable state held by the caller after a call to unpack_grib:
the shared checklist object, the manifest set object passed as
file_checklist, the dataset array and the mirror sink. -/
structure UState (G B : Type) where
  checklist : Option Checklist
  file_checklist : Option (Finset LocName)
  array : Option (Loc → G)
  mirror : Option (List B)

/-- The post-loop phase of unpack_grib (source lines 143-151): the
missing-records test, which compares the working copy against the empty
set with no None guard, so a None manifest also fails; then the race
re-check checklist & checklist_temp (a TypeError when checklist is None);
then the sole commit point checklist |= checklist_temp. -/
def finishUnpack {G B : Type} (args : UnpackArgs G B) :
    LoopState G B × Option UnpackError → Except UnpackError Unit × UState G B
  | (st, some e) =>
    (.error e, ⟨args.checklist, args.file_checklist, st.array, st.mirror⟩)
  | (st, none) =>
    if st.fc ≠ some ∅ then
      (.error .missingRecords,
       ⟨args.checklist, args.file_checklist, st.array, st.mirror⟩)
    else
      match args.checklist with
      | none =>
        (.error .noneChecklistTypeError,
         ⟨none, args.file_checklist, st.array, st.mirror⟩)
      | some c =>
        if (c ∩ st.temp).Nonempty then
          (.error .checklistRace,
           ⟨some c, args.file_checklist, st.array, st.mirror⟩)
        else
          (.ok (), ⟨some (c ∪ st.temp), args.file_checklist, st.array, st.mirror⟩)

/-- unpack_grib (source lines 99-153).  Line 111 rebinds the local name
file_checklist to a copy of the manifest, so the loop state starts from
the value of the manifest and the caller-held set itself is never
written; on every path the returned caller state carries the original
manifest object unchanged. -/
def unpack_grib {G B : Type} (args : UnpackArgs G B) :
    Except UnpackError Unit × UState G B :=
  finishUnpack args
    (processRecords args.checklist args.assert_hour args.file
      ⟨∅, args.file_checklist, false, args.dataset, args.gribmirror⟩)

/-- A parsed date-hour timestamp, the fields of the datetime produced by
strptime with format string Y m d H. -/
structure DsTime where
  year : ℕ
  month : ℕ
  day : ℕ
  hour : ℕ
deriving DecidableEq

/-- Gregorian leap year rule, as used by the datetime library. -/
def isLeapYear (y : ℕ) : Bool :=
  y % 4 = 0 && (y % 100 ≠ 0 || y % 400 = 0)

/-- Number of days of a month, as validated by the datetime library. -/
def daysInMonth (y m : ℕ) : ℕ :=
  if m = 2 then (if isLeapYear y then 29 else 28)
  else if m = 4 ∨ m = 6 ∨ m = 9 ∨ m = 11 then 30 else 31

/-- Numeric value of a decimal digit character, None otherwise. -/
def digitVal? (c : Char) : Option ℕ :=
  if c.isDigit then some (c.toNat - 48) else none

/-- Decimal value of a digit string, None when any character is not a
digit. -/
def parseDigits? (cs : List Char) : Option ℕ :=
  cs.foldl (fun acc c => acc.bind (fun n => (digitVal? c).map (fun d => n * 10 + d)))
    (some 0)

/-- Modelled semantics of datetime.strptime(s, Y m d H format) on the
10-character prefix taken by Dataset.listdir: the four fields are
fixed-width (4+2+2+2 digits; shorter matches cannot consume all ten
characters, so strptime raises ValueError on them), and the datetime
constructor validates year at least 1, month 1..12, day within the month,
and hour 0..23.  Any failure is None (the ValueError path). -/
def strptime_YmdH (s : String) : Option DsTime :=
  let cs := s.data
  if cs.length = 10 then
    match parseDigits? (cs.take 4), parseDigits? ((cs.drop 4).take 2),
        parseDigits? ((cs.drop 6).take 2), parseDigits? ((cs.drop 8).take 2) with
    | some y, some m, some d, some h =>
      if 1 ≤ y ∧ 1 ≤ m ∧ m ≤ 12 ∧ 1 ≤ d ∧ d ≤ daysInMonth y m ∧ h ≤ 23 then
        some ⟨y, m, d, h⟩
      else none
    | _, _, _, _ => none
  else none

/-- One item yielded by Dataset.listdir: the _listdir_type namedtuple
(ds_time, suffix, filename, path) of source lines 38-39. -/
structure ListdirEntry where
  ds_time : DsTime
  suffix : String
  filename : String
  path : String
deriving DecidableEq

/-- os.path.join for two components on posix: an absolute second component
wins; otherwise a separator is inserted unless one is present or the
directory is empty. -/
def path_join (d f : String) : String :=
  if f.data.head? = some '/' then f
  else if d = "" then f
  else if d.data.getLast? = some '/' then d ++ f
  else d ++ "/" ++ f

/-- Dataset.listdir (source lines 50-67) over the list of names returned
by os.listdir: skip names shorter than 10 characters, parse the first 10
characters as a timestamp (skip on ValueError), then apply the Python
truthiness test only_suffices and suffix not in only_suffices, which
filters only when the given collection is non-empty. -/
def listdir (directory : String) (entries : List String)
    (only_suffices : Option (List String)) : List ListdirEntry :=
  entries.filterMap (fun filename =>
    if filename.data.length < 10 then none
    else
      match strptime_YmdH ((filename.data.take 10).asString) with
      | none => none
      | some ds_time =>
        let suffix := (filename.data.drop 10).asString
        match only_suffices with
        | some allowed =>
          if allowed ≠ [] ∧ suffix ∉ allowed then none
          else some ⟨ds_time, suffix, filename, path_join directory filename⟩
        | none => some ⟨ds_time, suffix, filename, path_join directory filename⟩)

/-- The directory listing as the specification words it: yield exactly the
entries whose first 10 characters parse as a date-hour timestamp (shorter
or non-parsing names are skipped), and when a suffix filter set is given,
yield only entries whose suffix is in that set. -/
def listdirSpec (directory : String) (entries : List String)
    (only_suffices : Option (List String)) : List ListdirEntry :=
  entries.filterMap (fun filename =>
    match strptime_YmdH ((filename.data.take 10).asString) with
    | none => none
    | some ds_time =>
      let suffix := (filename.data.drop 10).asString
      if (match only_suffices with
          | some allowed => decide (suffix ∈ allowed)
          | none => true) = true then
        some ⟨ds_time, suffix, filename, path_join directory filename⟩
      else none)

/-- The state of one cooperative ingestion task: still inside the record
loop (running, with its remaining records, file-local state and
assert_hour), or finished with the committed slot set or an error.  Under
gevent scheduling the only suspension point is the progress callback at
the end of each kept-record iteration, so a task advances in atomic
segments from one callback to the next. -/
inductive TaskState (G B : Type) where
  | running (file : List (GribRecord G B)) (temp : Checklist)
      (fc : Option (Finset LocName)) (checkedAxes : Bool) (ah : Option ℤ)
  | succeeded (committed : Checklist)
  | failed (e : UnpackError)

/-- One atomic segment of an ingestion task against the current shared
checklist: consume filtered-out records (no suspension there), then either
process one kept record and suspend at its callback, or, when the stream
is exhausted, run the post-loop phase of unpack_grib, lines 143-151 with
no suspension point, committing the file-local checklist into the shared
one only after the race re-check finds no overlap. -/
def taskSegment {G B : Type} (shared : Checklist) :
    List (GribRecord G B) → Checklist → Option (Finset LocName) → Bool →
    Option ℤ → TaskState G B × Checklist
  | [], temp, fc, _, _ =>
    if fc ≠ some ∅ then (.failed .missingRecords, shared)
    else if (shared ∩ temp).Nonempty then (.failed .checklistRace, shared)
    else (.succeeded temp, shared ∪ temp)
  | r :: rest, temp, fc, ca, ah =>
    if keptFilter r = true then
      match resolveLoc (locNameOf r) with
      | none => (.failed .unknownLocation, shared)
      | some location =>
        match check_record r location (locNameOf r) temp (some shared) ah fc with
        | some e => (.failed e, shared)
        | none =>
          match (if ca = false then check_axes r else none) with
          | some e => (.failed e, shared)
          | none =>
            (.running rest (insert location temp)
              (fc.map (fun s => s.erase (locNameOf r))) true ah, shared)
    else taskSegment shared rest temp fc ca ah

/-- Advance one task by one atomic segment; finished tasks do not move. -/
def stepTask {G B : Type} (shared : Checklist) :
    TaskState G B → TaskState G B × Checklist
  | .running file temp fc ca ah => taskSegment shared file temp fc ca ah
  | t => (t, shared)

/-- A system of cooperative ingestion tasks sharing one checklist. -/
structure Sys (G B : Type) where
  shared : Checklist
  tasks : List (TaskState G B)

/-- Run the task at position i for one atomic segment. -/
def stepSys {G B : Type} (s : Sys G B) (i : ℕ) : Sys G B :=
  match s.tasks.get? i with
  | none => s
  | some t =>
    let p := stepTask s.shared t
    ⟨p.2, s.tasks.set i p.1⟩

/-- Run a cooperative schedule: at each entry the named task advances by
one atomic segment. -/
def runSys {G B : Type} (s : Sys G B) (sched : List ℕ) : Sys G B :=
  sched.foldl stepSys s

lemma finishUnpack_error_checklist {G B : Type} (args : UnpackArgs G B)
    (p : LoopState G B × Option UnpackError) (e : UnpackError) (st : UState G B)
    (h : finishUnpack args p = (.error e, st)) : st.checklist = args.checklist := by
  obtain ⟨st0, e?⟩ := p
  cases e? with
  | some e0 =>
    simp only [finishUnpack] at h
    injection h with h1 h2
    subst h2
    rfl
  | none =>
    simp only [finishUnpack] at h
    split at h
    · injection h with h1 h2
      subst h2
      rfl
    · split at h
      · injection h with h1 h2
        subst h2
        rename_i hac
        simp [hac]
      · rename_i c hac
        split at h
        · injection h with h1 h2
          subst h2
          simp [hac]
        · injection h with h1 h2
          exact absurd h1 (by simp)

lemma finishUnpack_manifest {G B : Type} (args : UnpackArgs G B)
    (p : LoopState G B × Option UnpackError) :
    ((finishUnpack args p).2).file_checklist = args.file_checklist := by
  obtain ⟨st0, e?⟩ := p
  cases e? with
  | some e0 => rfl
  | none =>
    simp only [finishUnpack]
    split
    · rfl
    · split
      · rfl
      · split
        · rfl
        · rfl

lemma processRecords_fc_none {G B : Type} (checklist : Option Checklist)
    (assert_hour : Option ℤ) (recs : List (GribRecord G B)) :
    ∀ st : LoopState G B, st.fc = none →
      ((processRecords checklist assert_hour recs st).1).fc = none := by
  induction recs with
  | nil => intro st h; simpa [processRecords] using h
  | cons r rest ih =>
    intro st h
    simp only [processRecords]
    by_cases hk : keptFilter r = true
    · rw [if_pos hk]
      split
      · simpa using h
      · split
        · simpa using h
        · split
          · simpa using h
          · exact ih _ (by simp [h])
    · rw [if_neg hk]
      exact ih st h

/-- Resolve the locations of a list of records, as _grib_records does one
record at a time; None as soon as one axis lookup misses. -/
def resolveAll {G B : Type} : List (GribRecord G B) → Option (List Loc)
  | [] => some []
  | r :: rs =>
    match resolveLoc (locNameOf r), resolveAll rs with
    | some l, some ls => some (l :: ls)
    | _, _ => none

lemma processRecords_all_valid {G B : Type} (c : Checklist) (ah : Option ℤ) :
    ∀ (recs : List (GribRecord G B)) (st : LoopState G B) (m : Finset LocName)
      (locs : List Loc),
    st.fc = some m →
    resolveAll (recs.filter keptFilter) = some locs →
    locs.Nodup →
    (∀ l ∈ locs, l ∉ st.temp) →
    (∀ l ∈ locs, l ∉ c) →
    ((recs.filter keptFilter).map locNameOf).Nodup →
    (∀ n ∈ (recs.filter keptFilter).map locNameOf, n ∈ m) →
    (∀ r ∈ recs.filter keptFilter, hourMismatch ah r = false) →
    (∀ r ∈ recs.filter keptFilter, check_axes r = none) →
    ∃ (ca : Bool) (arr : Option (Loc → G)) (mir : Option (List B)),
      processRecords (some c) ah recs st =
        (⟨st.temp ∪ locs.toFinset,
          some (m \ ((recs.filter keptFilter).map locNameOf).toFinset),
          ca, arr, mir⟩, none) := by
  intro recs
  induction recs with
  | nil =>
    intro st m locs hfc hres hnd hfresh hsh hndn hm hah hax
    have hl : locs = [] := by
      simp only [List.filter_nil, resolveAll] at hres
      exact (Option.some.inj hres).symm
    subst hl
    refine ⟨st.checkedAxes, st.array, st.mirror, ?_⟩
    simp only [processRecords, List.filter_nil, List.map_nil, List.toFinset_nil,
      Finset.sdiff_empty, Finset.union_empty]
    rw [← hfc]
  | cons r rest ih =>
    intro st m locs hfc hres hnd hfresh hsh hndn hm hah hax
    by_cases hk : keptFilter r = true
    · simp only [List.filter_cons, hk, if_true, List.map_cons] at hres hndn hm hah hax ⊢
      rcases hresolve : resolveLoc (locNameOf r) with _ | l
      · rw [resolveAll, hresolve] at hres
        simp at hres
      · rcases hrest : resolveAll (rest.filter keptFilter) with _ | ls
        · rw [resolveAll, hresolve, hrest] at hres
          simp at hres
        · rw [resolveAll, hresolve, hrest] at hres
          have hlocs : locs = l :: ls := by
            injection hres with h
            exact h.symm
          subst hlocs
          obtain ⟨hnotl, hndls⟩ := List.nodup_cons.mp hnd
          obtain ⟨hnotn, hndns⟩ := List.nodup_cons.mp hndn
          have h1 : l ∉ st.temp := hfresh l (by simp)
          have h2 : l ∉ c := hsh l (by simp)
          have h3 : hourMismatch ah r = false := hah r (by simp)
          have h4 : locNameOf r ∈ m := hm (locNameOf r) (by simp)
          have hcr : check_record r l (locNameOf r) st.temp (some c) ah st.fc = none := by
            simp [check_record, inShared, notInManifest, h1, h2, h3, h4, hfc]
          have hax0 : check_axes r = none := hax r (by simp)
          have haxif : (if st.checkedAxes = false then check_axes r else none) = none := by
            split <;> simp [hax0]
          obtain ⟨ca, arr, mir, hrec⟩ :=
            ih ⟨insert l st.temp, st.fc.map (fun s => s.erase (locNameOf r)), true,
                st.array.map (fun a => writeLoc a l r.values),
                st.mirror.map (fun ms => ms ++ [r.tostring])⟩
              (m.erase (locNameOf r)) ls
              (by simp [hfc])
              hrest
              hndls
              (by
                intro l' hl'
                rw [Finset.mem_insert, not_or]
                exact ⟨fun hll => hnotl (hll ▸ hl'), hfresh l' (by simp [hl'])⟩)
              (fun l' hl' => hsh l' (by simp [hl']))
              hndns
              (by
                intro n hn
                rw [Finset.mem_erase]
                exact ⟨fun hnl => hnotn (hnl ▸ hn), hm n (by simp [hn])⟩)
              (fun r' hr' => hah r' (by simp [hr']))
              (fun r' hr' => hax r' (by simp [hr']))
          refine ⟨ca, arr, mir, ?_⟩
          simp only [processRecords, hk, if_true, eq_self_iff_true, hresolve, hcr, haxif]
          rw [hrec]
          have hstate : insert l st.temp ∪ ls.toFinset =
              st.temp ∪ (l :: ls).toFinset := by
            rw [List.toFinset_cons, Finset.insert_union, Finset.union_insert]
          have hfceq : m.erase (locNameOf r) \
              ((rest.filter keptFilter).map locNameOf).toFinset =
              m \ (locNameOf r :: (rest.filter keptFilter).map locNameOf).toFinset := by
            rw [List.toFinset_cons, Finset.insert_eq, Finset.erase_eq, sdiff_sdiff,
              Finset.sup_eq_union]
          rw [hstate, hfceq]
    · simp only [List.filter_cons, hk, if_false, Bool.false_eq_true] at hres hndn hm hah hax ⊢
      simp only [processRecords, hk, if_false, Bool.false_eq_true]
      exact ih st m locs hfc hres hnd hfresh hsh hndn hm hah hax

/-- C3: a file whose kept records all resolve, land on pairwise-distinct
slots, exactly enumerate the supplied manifest and overlap nothing in the
shared checklist is unpacked successfully, and the shared checklist comes
back as exactly its prior value unioned with the file slots, every one of
which was previously absent. -/
theorem unpack_grib_wellformed_success {G B : Type} (args : UnpackArgs G B)
    (c : Checklist) (locs : List Loc)
    (hc : args.checklist = some c)
    (hfc : args.file_checklist =
      some (((args.file.filter keptFilter).map locNameOf).toFinset))
    (hres : resolveAll (args.file.filter keptFilter) = some locs)
    (hnd : locs.Nodup)
    (hndn : ((args.file.filter keptFilter).map locNameOf).Nodup)
    (hsh : ∀ l ∈ locs, l ∉ c)
    (hah : ∀ r ∈ args.file.filter keptFilter, hourMismatch args.assert_hour r = false)
    (hax : ∀ r ∈ args.file.filter keptFilter, check_axes r = none) :
    ∃ st : UState G B, unpack_grib args = (.ok (), st) ∧
      st.checklist = some (c ∪ locs.toFinset) ∧ c ∩ locs.toFinset = ∅ := by
  have hdisj : c ∩ locs.toFinset = ∅ := by
    rw [Finset.eq_empty_iff_forall_not_mem]
    intro x hx
    rw [Finset.mem_inter, List.mem_toFinset] at hx
    exact hsh x hx.2 hx.1
  obtain ⟨ca, arr, mir, hrec⟩ := processRecords_all_valid c args.assert_hour args.file
    ⟨∅, args.file_checklist, false, args.dataset, args.gribmirror⟩
    (((args.file.filter keptFilter).map locNameOf).toFinset) locs
    (by simp [hfc]) hres hnd (by simp) hsh hndn
    (fun n hn => List.mem_toFinset.mpr hn) hah hax
  refine ⟨⟨some (c ∪ locs.toFinset), args.file_checklist, arr, mir⟩, ?_, rfl, hdisj⟩
  unfold unpack_grib
  rw [hc, hrec]
  simp only [finishUnpack, Finset.sdiff_self, Finset.empty_union]
  rw [if_neg (by simp)]
  rw [hc]
  dsimp only
  rw [if_neg (by rw [Finset.not_nonempty_iff_eq_empty]; exact hdisj)]

/-- C3 witness: a one-record file carrying the height grid at hour 0,
pressure 1000, matching its one-triple manifest, committed into an empty
shared checklist. -/
theorem unpack_grib_wellformed_success_witness :
    ∃ st : UState ℕ ℕ,
      unpack_grib (⟨[⟨"isobaricInhPa", "Geopotential Height", 0, 1000, 7, 3,
          latitudeAxis, longitudeAxis⟩], some (fun _ => 0), some ∅, some [],
          none, some {(0, 1000, "height")}⟩ : UnpackArgs ℕ ℕ) = (.ok (), st) ∧
      st.checklist = some ((∅ : Checklist) ∪ ([(0, 0, 0)] : List Loc).toFinset) ∧
      (∅ : Checklist) ∩ ([(0, 0, 0)] : List Loc).toFinset = ∅ :=
  unpack_grib_wellformed_success
    (⟨[⟨"isobaricInhPa", "Geopotential Height", 0, 1000, 7, 3,
        latitudeAxis, longitudeAxis⟩], some (fun _ => 0), some ∅, some [],
        none, some {(0, 1000, "height")}⟩ : UnpackArgs ℕ ℕ)
    ∅ [(0, 0, 0)] rfl (by decide) (by decide) (by decide) (by decide)
    (by decide) (by decide) (by decide)

/-- C5: a file whose first two kept records resolve to the same slot fails
with the duplicate-in-file error on the second one; the shared checklist
comes back unchanged even though the grid of the first record was already
written into the dataset array (and its bytes into the mirror), with no
rollback. -/
theorem unpack_grib_duplicate_in_file {G B : Type}
    (r1 r2 : GribRecord G B) (rest : List (GribRecord G B))
    (arr : Loc → G) (c : Checklist) (gm : Option (List B)) (ah : Option ℤ)
    (fc : Option (Finset LocName)) (l : Loc)
    (hk1 : keptFilter r1 = true) (hk2 : keptFilter r2 = true)
    (hr1 : resolveLoc (locNameOf r1) = some l)
    (hr2 : resolveLoc (locNameOf r2) = some l)
    (hshared : l ∉ c)
    (hhour : hourMismatch ah r1 = false)
    (hman : notInManifest fc (locNameOf r1) = false)
    (haxes : check_axes r1 = none) :
    unpack_grib ⟨r1 :: r2 :: rest, some arr, some c, gm, ah, fc⟩ =
      (.error (.duplicateInFile (locNameOf r2)),
       ⟨some c, fc, some (writeLoc arr l r1.values),
        gm.map (fun ms => ms ++ [r1.tostring])⟩) := by
  unfold unpack_grib
  have hcr1 : check_record r1 l (locNameOf r1) (∅ : Checklist) (some c) ah fc = none := by
    simp [check_record, inShared, hshared, hhour, hman]
  have hcr2 : check_record r2 l (locNameOf r2) (insert l (∅ : Checklist)) (some c) ah
      (fc.map (fun s => s.erase (locNameOf r1))) =
      some (.duplicateInFile (locNameOf r2)) := by
    simp [check_record]
  simp only [processRecords, hk1, hk2, if_true, eq_self_iff_true, hr1, hr2]
  rw [hcr1]
  dsimp only
  rw [haxes]
  dsimp only
  rw [hcr2]
  rfl

/-- C5 witness: two height records at hour 0, pressure 1000 in one file;
the first grid (7) is left written at slot (0,0,0). -/
theorem unpack_grib_duplicate_in_file_witness :
    unpack_grib (⟨[⟨"isobaricInhPa", "Geopotential Height", 0, 1000, 7, 3,
        latitudeAxis, longitudeAxis⟩,
        ⟨"isobaricInhPa", "Geopotential Height", 0, 1000, 8, 4,
        latitudeAxis, longitudeAxis⟩],
        some (fun _ => 0), some ∅, none, none, none⟩ : UnpackArgs ℕ ℕ) =
      (.error (.duplicateInFile (0, 1000, "height")),
       ⟨some ∅, none, some (writeLoc (fun _ => 0) (0, 0, 0) 7), none⟩) :=
  unpack_grib_duplicate_in_file
    ⟨"isobaricInhPa", "Geopotential Height", 0, 1000, 7, 3, latitudeAxis, longitudeAxis⟩
    ⟨"isobaricInhPa", "Geopotential Height", 0, 1000, 8, 4, latitudeAxis, longitudeAxis⟩
    [] (fun _ => 0) ∅ none none none (0, 0, 0)
    (by decide) (by decide) (by decide) (by decide) (by decide) (by decide)
    (by decide) (by decide)

lemma processRecords_append_skipped {G B : Type} (checklist : Option Checklist)
    (ah : Option ℤ) (pre rest : List (GribRecord G B)) (st : LoopState G B) :
    (∀ r ∈ pre, keptFilter r = false) →
    processRecords checklist ah (pre ++ rest) st =
      processRecords checklist ah rest st := by
  induction pre with
  | nil => intro _; rfl
  | cons p ps ih =>
    intro hpre
    have hp : keptFilter p = false := hpre p (by simp)
    simp only [List.cons_append, processRecords]
    rw [if_neg (by simp [hp])]
    exact ih (fun r hr => hpre r (by simp [hr]))

lemma processRecords_temp_mono {G B : Type} (checklist : Option Checklist)
    (ah : Option ℤ) (recs : List (GribRecord G B)) :
    ∀ st : LoopState G B,
      st.temp ⊆ ((processRecords checklist ah recs st).1).temp := by
  induction recs with
  | nil => intro st; simp [processRecords, Finset.Subset.refl]
  | cons r rest ih =>
    intro st
    simp only [processRecords]
    by_cases hk : keptFilter r = true
    · rw [if_pos hk]
      split
      · exact Finset.Subset.refl _
      · split
        · exact Finset.Subset.refl _
        · split
          · exact Finset.Subset.refl _
          · exact fun x hx => ih _ (Finset.mem_insert_of_mem hx)
    · rw [if_neg hk]
      exact ih st

lemma processRecords_ok_head_kept {G B : Type} (checklist : Option Checklist)
    (ah : Option ℤ) (r : GribRecord G B) (rest : List (GribRecord G B))
    (st st' : LoopState G B) (hk : keptFilter r = true)
    (h : processRecords checklist ah (r :: rest) st = (st', none)) :
    ∃ l, resolveLoc (locNameOf r) = some l ∧ l ∈ st'.temp := by
  simp only [processRecords, hk, if_true, eq_self_iff_true] at h
  rcases hres : resolveLoc (locNameOf r) with _ | l
  · rw [hres] at h
    dsimp only at h
    exact absurd (congrArg Prod.snd h) (by simp)
  · rw [hres] at h
    dsimp only at h
    refine ⟨l, rfl, ?_⟩
    rcases hcr : check_record r l (locNameOf r) st.temp checklist ah st.fc with _ | e
    · rw [hcr] at h
      dsimp only at h
      rcases hax : (if st.checkedAxes = false then check_axes r else none) with _ | e
      · rw [hax] at h
        dsimp only at h
        have hmono := processRecords_temp_mono checklist ah rest
          ⟨insert l st.temp, st.fc.map (fun s => s.erase (locNameOf r)), true,
           st.array.map (fun a => writeLoc a l r.values),
           st.mirror.map (fun ms => ms ++ [r.tostring])⟩
        rw [h] at hmono
        exact hmono (Finset.mem_insert_self l st.temp)
      · rw [hax] at h
        dsimp only at h
        exact absurd (congrArg Prod.snd h) (by simp)
    · rw [hcr] at h
      dsimp only at h
      exact absurd (congrArg Prod.snd h) (by simp)

lemma finishUnpack_ok {G B : Type} (args : UnpackArgs G B)
    (st0 : LoopState G B) (e? : Option UnpackError) (st : UState G B)
    (h : finishUnpack args (st0, e?) = (.ok (), st)) :
    e? = none ∧ ∃ c, args.checklist = some c ∧
      st.checklist = some (c ∪ st0.temp) := by
  cases e? with
  | some e0 => exact absurd (congrArg Prod.fst h) (by simp [finishUnpack])
  | none =>
    simp only [finishUnpack] at h
    split at h
    · exact absurd (congrArg Prod.fst h) (by simp)
    · split at h
      · exact absurd (congrArg Prod.fst h) (by simp)
      · rename_i c hac
        split at h
        · exact absurd (congrArg Prod.fst h) (by simp)
        · refine ⟨rfl, c, hac, ?_⟩
          injection h with h1 h2
          rw [← h2]

/-- C6: re-running unpack_grib on the same file against the checklist a
successful run committed to fails with the already-unpacked error at the
first kept record of the file (its slot is now true in the shared
checklist), and the shared checklist is unchanged by the failed
re-ingestion. -/
theorem unpack_grib_reingest_already_unpacked {G B : Type}
    (args : UnpackArgs G B) (c c' : Checklist) (st1 : UState G B)
    (pre : List (GribRecord G B)) (r : GribRecord G B)
    (post : List (GribRecord G B))
    (hfile : args.file = pre ++ r :: post)
    (hpre : ∀ r' ∈ pre, keptFilter r' = false)
    (hk : keptFilter r = true)
    (hc : args.checklist = some c)
    (h1 : unpack_grib args = (.ok (), st1))
    (hc' : st1.checklist = some c') :
    ∃ l, resolveLoc (locNameOf r) = some l ∧
      unpack_grib { args with checklist := some c' } =
        (.error (.alreadyUnpacked (locNameOf r)),
         ⟨some c', args.file_checklist, args.dataset, args.gribmirror⟩) := by
  unfold unpack_grib at h1
  rcases hp : processRecords args.checklist args.assert_hour args.file
      ⟨∅, args.file_checklist, false, args.dataset, args.gribmirror⟩ with ⟨stL, e?⟩
  rw [hp] at h1
  obtain ⟨he, c0, hac0, hstc⟩ := finishUnpack_ok args stL e? st1 h1
  subst he
  rw [hc] at hac0
  injection hac0 with hcc
  subst hcc
  rw [hc'] at hstc
  injection hstc with hcu
  rw [hfile] at hp
  rw [processRecords_append_skipped args.checklist args.assert_hour pre (r :: post)
    _ hpre] at hp
  obtain ⟨l, hres, hl⟩ := processRecords_ok_head_kept args.checklist args.assert_hour
    r post _ stL hk hp
  have hlc' : l ∈ c' := by
    rw [hcu]
    exact Finset.mem_union_right _ hl
  refine ⟨l, hres, ?_⟩
  unfold unpack_grib
  rw [hfile]
  rw [processRecords_append_skipped (some c') args.assert_hour pre (r :: post) _ hpre]
  have hcr : check_record r l (locNameOf r) (∅ : Checklist) (some c')
      args.assert_hour args.file_checklist = some (.alreadyUnpacked (locNameOf r)) := by
    simp [check_record, inShared, hlc']
  simp only [processRecords, hk, if_true, eq_self_iff_true, hres]
  rw [hcr]
  rfl

/-- C6 witness: one ingestion of a one-record file commits slot (0,0,0);
running the same call again against the updated checklist fails with the
already-unpacked error. -/
theorem unpack_grib_reingest_already_unpacked_witness :
    ∃ l, resolveLoc (locNameOf
        (⟨"isobaricInhPa", "Geopotential Height", 0, 1000, 7, 3,
          latitudeAxis, longitudeAxis⟩ : GribRecord ℕ ℕ)) = some l ∧
      unpack_grib { (⟨[⟨"isobaricInhPa", "Geopotential Height", 0, 1000, 7, 3,
          latitudeAxis, longitudeAxis⟩], none, some ∅, none, none,
          some {(0, 1000, "height")}⟩ : UnpackArgs ℕ ℕ) with
          checklist := some ((∅ : Checklist) ∪ insert (0, 0, 0) ∅) } =
        (.error (.alreadyUnpacked (locNameOf
          (⟨"isobaricInhPa", "Geopotential Height", 0, 1000, 7, 3,
            latitudeAxis, longitudeAxis⟩ : GribRecord ℕ ℕ))),
         ⟨some ((∅ : Checklist) ∪ insert (0, 0, 0) ∅), some {(0, 1000, "height")},
          none, none⟩) :=
  unpack_grib_reingest_already_unpacked
    (⟨[⟨"isobaricInhPa", "Geopotential Height", 0, 1000, 7, 3,
        latitudeAxis, longitudeAxis⟩], none, some ∅, none, none,
        some {(0, 1000, "height")}⟩ : UnpackArgs ℕ ℕ)
    ∅ ((∅ : Checklist) ∪ insert (0, 0, 0) ∅)
    ⟨some ((∅ : Checklist) ∪ insert (0, 0, 0) ∅), some {(0, 1000, "height")}, none, none⟩
    [] _ [] rfl (by simp) (by decide) rfl rfl rfl

lemma taskSegment_shared_cases {G B : Type} (shared : Checklist) :
    ∀ (file : List (GribRecord G B)) (temp : Checklist)
      (fc : Option (Finset LocName)) (ca : Bool) (ah : Option ℤ)
      (t' : TaskState G B) (sh' : Checklist),
    taskSegment shared file temp fc ca ah = (t', sh') →
    (∃ cm, t' = .succeeded cm ∧ sh' = shared ∪ cm ∧ shared ∩ cm = ∅) ∨
    (sh' = shared ∧ ∀ cm, t' ≠ .succeeded cm) := by
  intro file
  induction file with
  | nil =>
    intro temp fc ca ah t' sh' h
    simp only [taskSegment] at h
    split at h
    · injection h with h1 h2
      refine Or.inr ⟨h2.symm, fun cm hcm => ?_⟩
      rw [← h1] at hcm
      exact TaskState.noConfusion hcm
    · split at h
      · injection h with h1 h2
        refine Or.inr ⟨h2.symm, fun cm hcm => ?_⟩
        rw [← h1] at hcm
        exact TaskState.noConfusion hcm
      · rename_i hmiss hrace
        injection h with h1 h2
        exact Or.inl ⟨temp, h1.symm, h2.symm,
          Finset.not_nonempty_iff_eq_empty.mp hrace⟩
  | cons r rest ih =>
    intro temp fc ca ah t' sh' h
    simp only [taskSegment] at h
    by_cases hk : keptFilter r = true
    · rw [if_pos hk] at h
      split at h
      · injection h with h1 h2
        refine Or.inr ⟨h2.symm, fun cm hcm => ?_⟩
        rw [← h1] at hcm
        exact TaskState.noConfusion hcm
      · split at h
        · injection h with h1 h2
          refine Or.inr ⟨h2.symm, fun cm hcm => ?_⟩
          rw [← h1] at hcm
          exact TaskState.noConfusion hcm
        · split at h
          · injection h with h1 h2
            refine Or.inr ⟨h2.symm, fun cm hcm => ?_⟩
            rw [← h1] at hcm
            exact TaskState.noConfusion hcm
          · injection h with h1 h2
            refine Or.inr ⟨h2.symm, fun cm hcm => ?_⟩
            rw [← h1] at hcm
            exact TaskState.noConfusion hcm
    · rw [if_neg hk] at h
      exact ih temp fc ca ah t' sh' h

lemma stepTask_cases {G B : Type} (shared : Checklist) (t : TaskState G B)
    (t' : TaskState G B) (sh' : Checklist) (h : stepTask shared t = (t', sh')) :
    (∃ cm, t' = .succeeded cm ∧ sh' = shared ∪ cm ∧ shared ∩ cm = ∅) ∨
    (sh' = shared ∧ (t' = t ∨ ∀ cm, t' ≠ .succeeded cm)) := by
  cases t with
  | running file temp fc ca ah =>
    rcases taskSegment_shared_cases shared file temp fc ca ah t' sh' h with
      ⟨cm, h1, h2, h3⟩ | ⟨h1, h2⟩
    · exact Or.inl ⟨cm, h1, h2, h3⟩
    · exact Or.inr ⟨h1, Or.inr h2⟩
  | succeeded cm =>
    simp only [stepTask] at h
    injection h with h1 h2
    exact Or.inr ⟨h2.symm, Or.inl h1.symm⟩
  | failed e =>
    simp only [stepTask] at h
    injection h with h1 h2
    exact Or.inr ⟨h2.symm, Or.inl h1.symm⟩

/-- The protocol invariant: every committed slot set is contained in the
shared checklist, and the committed slot sets of distinct tasks are
disjoint. -/
def SysInv {G B : Type} (s : Sys G B) : Prop :=
  (∀ i cm, s.tasks.get? i = some (.succeeded cm) → cm ⊆ s.shared) ∧
  (∀ i j ci cj, i ≠ j → s.tasks.get? i = some (.succeeded ci) →
    s.tasks.get? j = some (.succeeded cj) → ci ∩ cj = ∅)

lemma inter_empty_of_subsets {a b c : Checklist}
    (hsub : a ⊆ c) (hdisj : c ∩ b = ∅) : a ∩ b = ∅ := by
  rw [Finset.eq_empty_iff_forall_not_mem]
  intro x hx
  rw [Finset.mem_inter] at hx
  have hxc : x ∈ c ∩ b := Finset.mem_inter.mpr ⟨hsub hx.1, hx.2⟩
  rw [hdisj] at hxc
  exact Finset.not_mem_empty x hxc

lemma stepSys_inv {G B : Type} (s : Sys G B) (k : ℕ) (h : SysInv s) :
    SysInv (stepSys s k) := by
  obtain ⟨h1, h2⟩ := h
  unfold stepSys
  rcases hget : s.tasks.get? k with _ | t
  · exact ⟨h1, h2⟩
  · have hklt : k < s.tasks.length := by
      rcases List.get?_eq_some.mp hget with ⟨hlt, -⟩
      exact hlt
    dsimp only
    rcases hstep : stepTask s.shared t with ⟨t', sh'⟩
    dsimp only
    rcases stepTask_cases s.shared t t' sh' hstep with
      ⟨cm, hsucc, hsh, hdisj⟩ | ⟨hsh, hrest⟩
    · subst hsucc hsh
      constructor
      · intro j cm' hj
        by_cases hjk : j = k
        · subst hjk
          rw [List.get?_set_eq_of_lt _ hklt] at hj
          injection hj with hj
          injection hj with hj
          rw [← hj]
          exact Finset.subset_union_right
        · rw [List.get?_set_ne _ _ (fun he => hjk he.symm)] at hj
          exact (h1 j cm' hj).trans Finset.subset_union_left
      · intro i j ci cj hij hi hj
        by_cases hik : i = k
        · subst hik
          rw [List.get?_set_eq_of_lt _ hklt] at hi
          injection hi with hi
          injection hi with hi
          rw [List.get?_set_ne _ _ hij] at hj
          have hcj : cj ⊆ s.shared := h1 j cj hj
          rw [← hi, Finset.inter_comm]
          exact inter_empty_of_subsets hcj hdisj
        · by_cases hjk : j = k
          · subst hjk
            rw [List.get?_set_eq_of_lt _ hklt] at hj
            injection hj with hj
            injection hj with hj
            rw [List.get?_set_ne _ _ (fun he => hik he.symm)] at hi
            have hci : ci ⊆ s.shared := h1 i ci hi
            rw [← hj]
            exact inter_empty_of_subsets hci hdisj
          · rw [List.get?_set_ne _ _ (fun he => hik he.symm)] at hi
            rw [List.get?_set_ne _ _ (fun he => hjk he.symm)] at hj
            exact h2 i j ci cj hij hi hj
    · subst hsh
      constructor
      · intro j cm' hj
        by_cases hjk : j = k
        · subst hjk
          rw [List.get?_set_eq_of_lt _ hklt] at hj
          injection hj with hj
          rcases hrest with hte | hns
          · subst hte
            rw [hj] at hget
            exact h1 j cm' hget
          · exact absurd hj (hns cm')
        · rw [List.get?_set_ne _ _ (fun he => hjk he.symm)] at hj
          exact h1 j cm' hj
      · intro i j ci cj hij hi hj
        by_cases hik : i = k
        · subst hik
          rw [List.get?_set_eq_of_lt _ hklt] at hi
          injection hi with hi
          rcases hrest with hte | hns
          · subst hte
            rw [hi] at hget
            rw [List.get?_set_ne _ _ hij] at hj
            exact h2 i j ci cj hij hget hj
          · exact absurd hi (hns ci)
        · by_cases hjk : j = k
          · subst hjk
            rw [List.get?_set_eq_of_lt _ hklt] at hj
            injection hj with hj
            rcases hrest with hte | hns
            · subst hte
              rw [hj] at hget
              rw [List.get?_set_ne _ _ (fun he => hik he.symm)] at hi
              exact h2 i j ci cj hij hi hget
            · exact absurd hj (hns cj)
          · rw [List.get?_set_ne _ _ (fun he => hik he.symm)] at hi
            rw [List.get?_set_ne _ _ (fun he => hjk he.symm)] at hj
            exact h2 i j ci cj hij hi hj

lemma runSys_inv {G B : Type} (sched : List ℕ) :
    ∀ s : Sys G B, SysInv s → SysInv (runSys s sched) := by
  induction sched with
  | nil => intro s h; exact h
  | cons i rest ih =>
    intro s h
    exact ih _ (stepSys_inv s i h)

/-- C4: in every cooperative interleaving (tasks suspend only at the
progress callback) of ingestion tasks sharing one checklist, a task whose
file-local checklist overlaps the shared one at stream end fails with the
race error before the merge, and no two tasks that both complete
successfully ever commit the same slot: their committed slot sets are
disjoint, so each shared-checklist bit goes false to true in at most one
successful ingestion. -/
theorem unpack_interleaving_no_double_commit {G B : Type} :
    (∀ (shared temp : Checklist) (ca : Bool) (ah : Option ℤ),
      (shared ∩ temp).Nonempty →
      taskSegment shared ([] : List (GribRecord G B)) temp (some ∅) ca ah =
        (.failed .checklistRace, shared)) ∧
    (∀ (init : Sys G B) (sched : List ℕ),
      (∀ t ∈ init.tasks, ∀ cm, t ≠ TaskState.succeeded cm) →
      ∀ (i j : ℕ) (ci cj : Checklist), i ≠ j →
      (runSys init sched).tasks.get? i = some (.succeeded ci) →
      (runSys init sched).tasks.get? j = some (.succeeded cj) →
      ci ∩ cj = ∅) := by
  constructor
  · intro shared temp ca ah hne
    simp only [taskSegment]
    rw [if_neg (by simp), if_pos hne]
  · intro init sched hinit i j ci cj hij hi hj
    have hinv : SysInv init := by
      constructor
      · intro m cm hm
        exact absurd rfl (hinit _ (List.get?_mem hm) cm)
      · intro a b ca2 cb2 _ ha hb
        exact absurd rfl (hinit _ (List.get?_mem ha) ca2)
    exact (runSys_inv sched init hinv).2 i j ci cj hij hi hj

/-- C4 witness: the race re-check fires on an overlapping slot, and a
concrete two-task run over disjoint slots commits both with disjoint slot
sets. -/
theorem unpack_interleaving_no_double_commit_witness :
    (taskSegment ({(0, 0, 0)} : Checklist) ([] : List (GribRecord ℕ ℕ))
        {(0, 0, 0)} (some ∅) false none =
      (.failed .checklistRace, {(0, 0, 0)})) ∧
    ({(0, 0, 0)} : Checklist) ∩ {(1, 0, 0)} = ∅ :=
  ⟨unpack_interleaving_no_double_commit.1 {(0, 0, 0)} {(0, 0, 0)} false none
      (by decide),
   unpack_interleaving_no_double_commit.2
     (⟨∅, [.running [] {(0, 0, 0)} (some ∅) false none,
          .running [] {(1, 0, 0)} (some ∅) false none]⟩ : Sys ℕ ℕ)
     [0, 1]
     (by
       intro t ht cm
       simp only [List.mem_cons, List.not_mem_nil, or_false] at ht
       rcases ht with rfl | rfl
       · exact fun hcm => TaskState.noConfusion hcm
       · exact fun hcm => TaskState.noConfusion hcm)
     0 1 {(0, 0, 0)} {(1, 0, 0)} (by decide) (by rfl) (by rfl)⟩

/-- C9: the dataset shape is the constant (65, 47, 3, 361, 720); it equals
the tuple of the lengths of the five axes (the assert at source line 41),
and the checklist shape, shape[0:3], is its first three components.  All
of these are load-time constants of the module, so no operation can change
them. -/
theorem dataset_shape_invariant :
    shape = (65, 47, 3, 361, 720) ∧
    shape = (hourAxis.length, pressureAxis.length, variableAxis.length,
      latitudeAxis.length, longitudeAxis.length) ∧
    checklistShape = (shape.1, shape.2.1, shape.2.2.1) ∧
    checklistShape = (65, 47, 3) := by
  refine ⟨rfl, by decide, rfl, rfl⟩

/-- C7: axis index lookup returns 0 for hour 0 on the hour axis, 0 for
pressure 1000 on the descending-sorted pressure axis (1000 is the largest
level), 0 for the variable named height, and None (the ValueError path of
list.index) for any value absent from a list. -/
theorem axis_index_lookup :
    index? hourAxis 0 = some 0 ∧
    index? pressureAxis 1000 = some 0 ∧
    index? variableAxis "height" = some 0 ∧
    (∀ {α : Type} [DecidableEq α] (xs : List α) (v : α),
      v ∉ xs → index? xs v = none) := by
  refine ⟨by decide, by decide, by decide, ?_⟩
  intro α _ xs v hv
  induction xs with
  | nil => rfl
  | cons x xs ih =>
    simp only [List.mem_cons, not_or] at hv
    simp only [index?]
    rw [if_neg (fun hxv => hv.1 hxv.symm), ih hv.2]
    rfl

/-- C7 witness: the hour axis holds multiples of 3 only, so looking up
hour 1 fails. -/
theorem axis_index_lookup_witness : index? hourAxis 1 = none :=
  axis_index_lookup.2.2.2 hourAxis 1 (by decide)

/-- C8 counterexample: with an empty suffix-filter set the Python
truthiness test disables filtering entirely, so listdir yields an entry
whose suffix is not in the given (empty) set, contradicting the claim that
only entries whose suffix is in the given set are yielded. -/
theorem listdir_empty_filter_counterexample :
    listdir "d" ["2024010100"] (some []) ≠
      listdirSpec "d" ["2024010100"] (some []) := by
  decide

/-- C8 (amended): listdir agrees with the specification description of
the directory listing whenever the suffix filter is absent or non-empty,
and on the concrete three-file directory of the claim it yields exactly
the two parseable entries with their timestamp, suffix and joined path. -/
theorem listdir_filter_agreement :
    (∀ (directory : String) (entries : List String) (flt : Option (List String)),
        (flt = none ∨ ∃ l, flt = some l ∧ l ≠ []) →
        listdir directory entries flt = listdirSpec directory entries flt) ∧
    listdir "d" ["2024010100", "2024010100.gribmirror", "notadate.tmp"] none =
      [⟨⟨2024, 1, 1, 0⟩, "", "2024010100", "d/2024010100"⟩,
       ⟨⟨2024, 1, 1, 0⟩, ".gribmirror", "2024010100.gribmirror",
        "d/2024010100.gribmirror"⟩] := by
  constructor
  · intro directory entries flt hflt
    unfold listdir listdirSpec
    apply List.filterMap_congr
    intro filename _
    by_cases hlen : filename.data.length < 10
    · rw [if_pos hlen]
      have hshort : ((filename.data.take 10).asString).data.length ≠ 10 := by
        simp only [List.asString]
        rw [List.length_take]
        omega
      unfold strptime_YmdH
      rw [if_neg hshort]
    · rw [if_neg hlen]
      rcases hparse : strptime_YmdH ((filename.data.take 10).asString) with _ | t
      · rfl
      · rcases hflt with hnone | ⟨l, hsome, hne⟩
        · subst hnone
          rfl
        · subst hsome
          dsimp only
          by_cases hm : (filename.data.drop 10).asString ∈ l
          · rw [if_neg (by simp [hm]), if_pos (by simp [hm])]
          · rw [if_pos (by simp [hne, hm]), if_neg (by simp [hm])]
  · decide

/-- C8 witness for the amended agreement: a concrete non-empty filter. -/
theorem listdir_filter_agreement_witness :
    listdir "d" ["2024010100"] (some ["x"]) =
      listdirSpec "d" ["2024010100"] (some ["x"]) :=
  listdir_filter_agreement.1 "d" ["2024010100"] (some ["x"])
    (Or.inr ⟨["x"], rfl, by decide⟩)

/-- C1: whenever unpack_grib fails, with any of its error kinds, the
shared checklist held by the caller is unchanged: the only write to it is
the commit at source line 151, which is reached only on success. -/
theorem unpack_grib_failure_leaves_checklist {G B : Type} (args : UnpackArgs G B)
    (e : UnpackError) (st : UState G B) (h : unpack_grib args = (.error e, st)) :
    st.checklist = args.checklist := by
  unfold unpack_grib at h
  exact finishUnpack_error_checklist args _ e st h

/-- C1 witness: a failing call (empty stream, no manifest) leaves the
shared checklist as it was. -/
theorem unpack_grib_failure_leaves_checklist_witness :
    ∃ st : UState ℕ ℕ,
      unpack_grib ⟨[], none, some {(0, 0, 0)}, none, none, none⟩ =
        (.error .missingRecords, st) ∧ st.checklist = some {(0, 0, 0)} := by
  refine ⟨⟨some {(0, 0, 0)}, none, none, none⟩, rfl, ?_⟩
  exact unpack_grib_failure_leaves_checklist
    (⟨[], none, some {(0, 0, 0)}, none, none, none⟩ : UnpackArgs ℕ ℕ)
    .missingRecords ⟨some {(0, 0, 0)}, none, none, none⟩ rfl

/-- C10: unpack_grib never writes the manifest set object passed by the
caller: line 111 rebinds the local name to a copy, and every later removal
acts on the copy, so on success and on failure alike the caller-held set
is unchanged. -/
theorem unpack_grib_manifest_frame {G B : Type} (args : UnpackArgs G B) :
    ((unpack_grib args).2).file_checklist = args.file_checklist := by
  unfold unpack_grib
  exact finishUnpack_manifest args _

/-- C2 (the code as written): when no manifest is supplied the final test
file_checklist != set() at source line 143 compares None against the empty
set, which is True, so unpack_grib never succeeds: every call without a
manifest raises, and with an otherwise well-formed (here: empty) stream it
raises the missing-records error even though nothing is missing. -/
theorem unpack_grib_missing_manifest_bug {G B : Type} (args : UnpackArgs G B)
    (hfc : args.file_checklist = none) :
    (∃ e, (unpack_grib args).1 = .error e) ∧
    (args.file = [] → unpack_grib args =
      (.error .missingRecords,
       ⟨args.checklist, none, args.dataset, args.gribmirror⟩)) := by
  constructor
  · unfold unpack_grib
    rcases hp : processRecords args.checklist args.assert_hour args.file
        ⟨∅, args.file_checklist, false, args.dataset, args.gribmirror⟩ with ⟨st0, e?⟩
    cases e? with
    | some e0 => exact ⟨e0, by simp [finishUnpack, hp]⟩
    | none =>
      refine ⟨.missingRecords, ?_⟩
      have hnone : st0.fc = none := by
        have := processRecords_fc_none args.checklist args.assert_hour args.file
          ⟨∅, args.file_checklist, false, args.dataset, args.gribmirror⟩ (by simp [hfc])
        rwa [hp] at this
      simp [finishUnpack, hp, hnone]
  · intro hfile
    unfold unpack_grib
    simp [processRecords, finishUnpack, hfile, hfc]

/-- C2 witness: the concrete failing input of the divergence, a call with
an empty record stream and no manifest. -/
theorem unpack_grib_missing_manifest_bug_witness :
    unpack_grib (⟨[], none, some ∅, none, none, none⟩ : UnpackArgs ℕ ℕ) =
      (.error .missingRecords, ⟨some ∅, none, none, none⟩) :=
  (unpack_grib_missing_manifest_bug _ rfl).2 rfl

end Tawhiri
